import Mathlib

/-!
# Verification of the SecretAuction repository

This file gives a shallow embedding of the SecretAuction system and proves
properties of its confidential-bid lifecycle.

The embedded code consists of three artifacts:

* the Solidity contract `SecretAuction` (encrypted bids compared against a
  secret reserve price).  FHE ciphertexts (`euint32`, `ebool`) are modelled by
  their underlying plaintext values: `FHE.gt`/`FHE.eq`/`FHE.or`/`FHE.select`
  are homomorphic, so the stored (encrypted) result is determined by the
  plaintext computation embedded here.  `bytes32` result handles are modelled
  by the result value they refer to.
* the Next.js auction page (`AuctionPage` in `app/layout.tsx`): the bid form,
  the submit handler, the permission-sync countdown, the decrypt handler with
  its retry loop, and the `Try Again` reset.  The page is modelled as a state
  machine over the component's `useState` fields; one event corresponds to one
  complete handler run (the transient `isSubmitting`/`isDecrypting` flags are
  set and cleared inside a single run and are therefore not part of the
  state).  The bid `<input type="number">` yields either the empty string or a
  decimal numeral, so `bidAmount` is modelled as `Option ℚ` (`none` = empty
  field); `parseFloat` on that domain is the identity and `parseInt` is the
  floor.
* the demo-mode guide shipped in the repository, whose `calculateMockResult`
  is the local fallback ("Mock") computation, and whose error path switches to
  the mock when demo mode is enabled and the error message contains `'500'`.

External collaborators (relayer SDK, wallet, ledger) are modelled by
parameters: an abstract encryption function `enc`, booleans for call success,
and the server's per-attempt decryption responses.  Calls to them are recorded
as an explicit trace (`ExtCall`).  `generateKeypair` returns fresh key
material on every call; calls are identified by a running call counter, so two
calls never return the same key id.
-/

namespace SecretAuction

/-- Participant addresses (opaque identities). -/
abbrev Addr := Nat

/-! ## The contract (`SecretAuction.sol`) -/

/-- Storage of the `SecretAuction` contract.  `bidResults` holds, per address,
the plaintext under the stored encrypted result handle (1 = success,
0 = failure); `hasBid` and `bidTimestamp` are the plain mappings. -/
structure ContractState where
  reservePrice : Nat
  bidResults : Addr → Nat
  hasBid : Addr → Bool
  bidTimestamp : Addr → Nat

/-- The constructor: the reserve price is set to 1000 (encrypted); no bids
exist yet. -/
def initialContract : ContractState :=
  { reservePrice := 1000
    bidResults := fun _ => 0
    hasBid := fun _ => false
    bidTimestamp := fun _ => 0 }

/-- `submitBid`: compares the (decrypted-view) bid against the reserve price
using `gt OR eq`, stores the selected `1`/`0` result for the sender, marks
`hasBid` and records the timestamp. -/
def submitBid (st : ContractState) (sender : Addr) (bid : Nat) (ts : Nat) :
    ContractState :=
  let isGreater := decide (bid > st.reservePrice)
  let isEqual := decide (bid = st.reservePrice)
  let isSuccess := isGreater || isEqual
  let result := if isSuccess then 1 else 0
  { st with
    bidResults := fun a => if a = sender then result else st.bidResults a
    hasBid := fun a => if a = sender then true else st.hasBid a
    bidTimestamp := fun a => if a = sender then ts else st.bidTimestamp a }

/-- `getMyResult`: requires `hasBid[msg.sender]`, otherwise reverts with
`"No bid submitted"`; on success returns the handle of the caller's stored
result (modelled by the result value). -/
def getMyResult (st : ContractState) (caller : Addr) : Except String Nat :=
  if st.hasBid caller then Except.ok (st.bidResults caller)
  else Except.error "No bid submitted"

/-- The comparison performed inside `submitBid`, as a function of the bid and
the threshold: `1` iff `bid > threshold` or `bid = threshold`, else `0`. -/
def realCompare (bid threshold : Nat) : Nat :=
  if decide (bid > threshold) || decide (bid = threshold) then 1 else 0

/-! ## Outcome interpretation (frontend) -/

/-- The user-visible outcome of a session. -/
inductive Outcome where
  | won
  | lost
deriving DecidableEq

/-- The result display in `AuctionPage`: `result === 1` shows "You Won!",
anything else shows "Bid Too Low". -/
def interpretResult (v : Nat) : Outcome :=
  if v = 1 then Outcome.won else Outcome.lost

/-! ## The fallback oracle (demo-mode guide) -/

/-- The guide's mock secret (`SECRET_NUMBER = 888`). -/
def SECRET_NUMBER : Nat := 888

/-- `calculateMockResult` from the demo-mode guide: returns `1` exactly when
the saved plaintext string equals `String(SECRET_NUMBER)`, else `0` (a `null`
saved value never matches). -/
def calculateMockResult (savedValue : Option String) : Nat :=
  if savedValue = some (toString SECRET_NUMBER) then 1 else 0

/-! ## JavaScript `String.prototype.includes` -/

/-- Whether the character list `s` starts with the character list `pat`. -/
def startsWithChars : List Char → List Char → Bool
  | [], _ => true
  | _ :: _, [] => false
  | p :: ps, c :: cs => p = c && startsWithChars ps cs

/-- Whether `pat` occurs contiguously inside `s`. -/
def containsChars (pat : List Char) : List Char → Bool
  | [] => startsWithChars pat []
  | c :: cs => startsWithChars pat (c :: cs) || containsChars pat cs

/-- Model of JavaScript `s.includes(pat)`. -/
def includes (s pat : String) : Bool :=
  containsChars pat.data s.data

/-- Transient-error classification used by the decrypt handler:
`e.message?.includes('500')`. -/
def transient (errMsg : String) : Bool :=
  includes errMsg "500"

/-! ## The decrypt handler and its retry loop (`handleDecryptResult`) -/

/-- Retry cap: the handler retries while `retryCount < 3`. -/
def maxRetries : Nat := 3

/-- Backoff base: `waitTime = (retryCount + 1) * 10` seconds. -/
def baseDelaySeconds : Nat := 10

/-- Response of one real decryption attempt: the decrypted value, or a thrown
error carrying a message. -/
inductive DecryptOutcome where
  | success (value : Nat)
  | failure (errMsg : String)

/-- Final disposition of the decrypt handler. -/
inductive SessionEnd where
  | resolved (value : Nat)
  | failed (errMsg : String)
deriving DecidableEq

/-- What a full run of the decrypt handler did: the key-material ids generated
(one fresh `generateKeypair` call per attempt, identified by a running call
counter), the backoff delays awaited between attempts (in seconds), and the
final disposition. -/
structure AttemptLog where
  keyIds : List Nat
  delays : List Nat
  finish : SessionEnd
deriving DecidableEq

/-- `handleDecryptResult(retryCount)`: performs one real decryption attempt
(generating a fresh keypair first); on success resolves with the decrypted
value; on a failure whose message contains `'500'` while `retryCount < 3`,
waits `(retryCount + 1) * 10` seconds and recurses with `retryCount + 1`;
otherwise fails with the error message.  `res` gives the server's response to
the attempt at each retry index; `keyId` is the keypair call counter. -/
def handleDecryptResult (res : Nat → DecryptOutcome) (retryCount : Nat)
    (keyId : Nat) : AttemptLog :=
  match res retryCount with
  | DecryptOutcome.success v =>
      { keyIds := [keyId], delays := [], finish := SessionEnd.resolved v }
  | DecryptOutcome.failure msg =>
      if h : transient msg = true ∧ retryCount < maxRetries then
        let rest := handleDecryptResult res (retryCount + 1) (keyId + 1)
        { keyIds := keyId :: rest.keyIds
          delays := (retryCount + 1) * baseDelaySeconds :: rest.delays
          finish := rest.finish }
      else
        { keyIds := [keyId], delays := [], finish := SessionEnd.failed msg }
termination_by maxRetries - retryCount
decreasing_by exact Nat.sub_succ_lt_self _ _ h.2

/-- The demo-mode guide's error path: when demo mode is on and the error
message contains `'500'`, the mock result computed from the locally saved
plaintext is used; otherwise the error is surfaced. -/
def demoErrorPath (demoMode : Bool) (errMsg : String)
    (savedValue : Option String) : SessionEnd :=
  if demoMode && transient errMsg then
    SessionEnd.resolved (calculateMockResult savedValue)
  else
    SessionEnd.failed errMsg

/-! ## The auction page state machine (`AuctionPage` in `app/layout.tsx`) -/

/-- The `useState` fields of `AuctionPage` that survive a handler run.
`bidAmount` is the number input (`none` = empty field). -/
structure UiState where
  bidAmount : Option ℚ
  hasBidSubmitted : Bool
  canDecrypt : Bool
  countdown : Nat
  result : Option Nat
  errorMsg : Option String
deriving DecidableEq

/-- The component's initial state. -/
def initialUiState : UiState :=
  { bidAmount := none
    hasBidSubmitted := false
    canDecrypt := false
    countdown := 0
    result := none
    errorMsg := none }

/-- `handleTryAgain`: clears the bid amount, the submitted flag, the decrypt
permission, the countdown, the result and the error. -/
def handleTryAgain (_s : UiState) : UiState :=
  { bidAmount := none
    hasBidSubmitted := false
    canDecrypt := false
    countdown := 0
    result := none
    errorMsg := none }

/-- Error message of the input-validation rejection in `handleSubmitBid`. -/
def validationError : String := "Please enter a valid bid amount"

/-- Error message when no wallet/FHEVM instance is available. -/
def walletError : String := "Please connect your wallet first"

/-- Error message when `CONTRACT_ADDRESS` is not configured. -/
def contractError : String := "Contract not deployed yet. Please wait."

/-- The validation guard `!bidAmount || parseFloat(bidAmount) <= 0`: the
field is empty, or its numeric value is not positive. -/
def invalidBid : Option ℚ → Bool
  | none => true
  | some q => decide (q ≤ 0)

/-- `parseInt(bidAmount)`: the integer part of the entered amount. -/
def bidRaw : Option ℚ → Nat
  | none => 0
  | some q => q.floor.toNat

/-- External calls issued by the submit handler: the gateway encryption of
the plaintext, and the ledger (contract) submission carrying a handle and a
proof. -/
inductive ExtCall where
  | gatewayEncrypt (plaintext : Nat)
  | ledgerSubmit (handle : Nat) (proof : Nat)
deriving DecidableEq

/-- One full run of `handleSubmitBid`.  `ready` models the
wallet/FHEVM-instance check, `cfg` the `CONTRACT_ADDRESS` check; `enc` is the
relayer SDK's encryption (plaintext to handle/proof pair); `encOk` and `txOk`
tell whether the encryption call and the transaction succeed, `errText` the
thrown message (`e.message || 'Failed to submit bid'`).  Returns the new
component state and the trace of external calls issued. -/
def handleSubmitBid (ready cfg : Bool) (enc : Nat → Nat × Nat)
    (encOk txOk : Bool) (errText : String) (s : UiState) :
    UiState × List ExtCall :=
  if ready = false then ({ s with errorMsg := some walletError }, [])
  else if invalidBid s.bidAmount = true then
    ({ s with errorMsg := some validationError }, [])
  else if cfg = false then ({ s with errorMsg := some contractError }, [])
  else
    let raw := bidRaw s.bidAmount
    if encOk = false then
      ({ s with errorMsg := some errText }, [ExtCall.gatewayEncrypt raw])
    else if txOk = false then
      ({ s with errorMsg := some errText },
        [ExtCall.gatewayEncrypt raw,
          ExtCall.ledgerSubmit (enc raw).1 (enc raw).2])
    else
      ({ s with
          hasBidSubmitted := true
          bidAmount := none
          countdown := 10
          errorMsg := none },
        [ExtCall.gatewayEncrypt raw,
          ExtCall.ledgerSubmit (enc raw).1 (enc raw).2])

/-- Events driving the page: typing in the amount field, a run of the submit
handler, a countdown tick, a run of the decrypt handler ending in `fin`, and
the `Try Again` button. -/
inductive Event where
  | setAmount (q : Option ℚ)
  | submit (enc : Nat → Nat × Nat) (encOk txOk : Bool) (errText : String)
  | tick
  | decrypt (fin : SessionEnd)
  | tryAgain

/-- The bid form (and its submit button) is rendered only while
`!hasBidSubmitted`. -/
def submitEnabled (s : UiState) : Bool := !s.hasBidSubmitted

/-- The `Try Again` button is rendered only while `result !== null`. -/
def resetEnabled (s : UiState) : Bool := s.result.isSome

/-- One transition of the page.  Actions of controls that are not rendered in
the current state are no-ops. -/
def step (cfg : Bool) (s : UiState) : Event → UiState
  | Event.setAmount q =>
      if s.hasBidSubmitted = true then s else { s with bidAmount := q }
  | Event.submit enc encOk txOk errText =>
      if s.hasBidSubmitted = true then s
      else (handleSubmitBid true cfg enc encOk txOk errText s).1
  | Event.tick =>
      if s.countdown = 0 then s
      else if s.countdown ≤ 1 then { s with countdown := 0, canDecrypt := true }
      else { s with countdown := s.countdown - 1 }
  | Event.decrypt fin =>
      if s.canDecrypt = true ∧ s.result = none then
        match fin with
        | SessionEnd.resolved v =>
            { s with result := some v, canDecrypt := false, errorMsg := none }
        | SessionEnd.failed m => { s with errorMsg := some m }
      else s
  | Event.tryAgain => if resetEnabled s = true then handleTryAgain s else s

/-- Running the page over a sequence of events. -/
def run (cfg : Bool) (s : UiState) (es : List Event) : UiState :=
  es.foldl (step cfg) s

/-! ## Helper lemmas -/

/-- Unfolding `handleDecryptResult` when the attempt succeeds. -/
lemma handleDecryptResult_success (res : Nat → DecryptOutcome) (r k v : Nat)
    (h : res r = DecryptOutcome.success v) :
    handleDecryptResult res r k =
      { keyIds := [k], delays := [], finish := SessionEnd.resolved v } := by
  rw [handleDecryptResult.eq_def, h]

/-- Unfolding `handleDecryptResult` on a retryable failure. -/
lemma handleDecryptResult_retry (res : Nat → DecryptOutcome) (r k : Nat)
    (msg : String) (h : res r = DecryptOutcome.failure msg)
    (hc : transient msg = true ∧ r < maxRetries) :
    handleDecryptResult res r k =
      { keyIds := k :: (handleDecryptResult res (r + 1) (k + 1)).keyIds
        delays := (r + 1) * baseDelaySeconds ::
          (handleDecryptResult res (r + 1) (k + 1)).delays
        finish := (handleDecryptResult res (r + 1) (k + 1)).finish } := by
  rw [handleDecryptResult.eq_def, h]
  simp only [hc, and_self, dite_true]

/-- Unfolding `handleDecryptResult` on a non-retryable failure. -/
lemma handleDecryptResult_stop (res : Nat → DecryptOutcome) (r k : Nat)
    (msg : String) (h : res r = DecryptOutcome.failure msg)
    (hc : ¬(transient msg = true ∧ r < maxRetries)) :
    handleDecryptResult res r k =
      { keyIds := [k], delays := [], finish := SessionEnd.failed msg } := by
  rw [handleDecryptResult.eq_def, h]
  simp only [hc, dite_false]

/-- Structure of a decrypt run: all generated key ids lie in the half-open
interval starting at the initial counter value and of width the number of
attempts, they are pairwise distinct, there is at least one attempt, and
there are at most `maxRetries - r + 1` attempts. -/
lemma handleDecryptResult_keyIds_spec (res : Nat → DecryptOutcome) :
    ∀ n r k, maxRetries - r ≤ n →
      (∀ i ∈ (handleDecryptResult res r k).keyIds,
        k ≤ i ∧ i < k + (handleDecryptResult res r k).keyIds.length) ∧
      ((handleDecryptResult res r k).keyIds).Nodup ∧
      (handleDecryptResult res r k).keyIds.length ≤ maxRetries - r + 1 ∧
      (handleDecryptResult res r k).keyIds ≠ [] := by
  intro n
  induction n with
  | zero =>
      intro r k hn
      rcases hres : res r with v | msg
      · rw [handleDecryptResult_success res r k v hres]
        simp
      · have hc : ¬(transient msg = true ∧ r < maxRetries) := by
          rintro ⟨-, hlt⟩
          omega
        rw [handleDecryptResult_stop res r k msg hres hc]
        simp
  | succ n ih =>
      intro r k hn
      rcases hres : res r with v | msg
      · rw [handleDecryptResult_success res r k v hres]
        simp
      · by_cases hc : transient msg = true ∧ r < maxRetries
        · rw [handleDecryptResult_retry res r k msg hres hc]
          obtain ⟨hlb, hnd, hlen, -⟩ := ih (r + 1) (k + 1) (by omega)
          refine ⟨?_, ?_, ?_, by simp⟩
          · intro i hi
            simp only [List.length_cons]
            rcases List.mem_cons.mp hi with hi | hi
            · omega
            · have := hlb i hi
              omega
          · refine List.nodup_cons.mpr ⟨fun hmem => ?_, hnd⟩
            have := (hlb k hmem).1
            omega
          · simp only [List.length_cons]
            omega
        · rw [handleDecryptResult_stop res r k msg hres hc]
          simp

/-- The comparison in `submitBid` is the greater-or-equal test. -/
lemma realCompare_eq (bid threshold : Nat) :
    realCompare bid threshold = if threshold ≤ bid then 1 else 0 := by
  rcases Nat.lt_trichotomy bid threshold with h | h | h
  · have h1 : ¬bid > threshold := by omega
    have h2 : ¬bid = threshold := by omega
    have h3 : ¬threshold ≤ bid := by omega
    simp [realCompare, h1, h2, h3]
  · subst h
    simp [realCompare]
  · have h1 : bid > threshold := h
    have h3 : threshold ≤ bid := by omega
    simp [realCompare, h1, h3]

/-- `submitBid` stores exactly the `realCompare` result for the sender. -/
lemma submitBid_stores_realCompare (st : ContractState) (sender : Addr)
    (bid ts : Nat) :
    (submitBid st sender bid ts).bidResults sender =
      realCompare bid st.reservePrice ∧
    (submitBid st sender bid ts).hasBid sender = true := by
  constructor <;> simp [submitBid, realCompare]

/-! ## Claim theorems -/

/-- C1 counterexample: the claim asserts that at the exact boundary
`v = threshold` the outcome is `Lost`; on the code, a bid of exactly 1000
stores result 1, which the page displays as `Won`. -/
theorem c1_boundary_bid_wins :
    getMyResult (submitBid initialContract 7 1000 0) 7 = Except.ok 1 ∧
    interpretResult 1 = Outcome.won ∧ interpretResult 1 ≠ Outcome.lost :=
  ⟨rfl, rfl, by decide⟩

/-- C1 (amended): for every valid bid (positive, representable as `uint32`),
submitting it and then successfully decrypting through the real path yields
`Won` iff `bid ≥ 1000`; at the exact boundary `bid = 1000` the outcome is
`Won` (the comparison is `gt OR eq`, i.e. `≥`). -/
theorem c1_submit_decrypt_won_iff (sender ts bid : Nat) (hpos : 0 < bid)
    (hrep : bid < 4294967296) :
    ∃ r, getMyResult (submitBid initialContract sender bid ts) sender =
        Except.ok r ∧
      (interpretResult r = Outcome.won ↔ 1000 ≤ bid) ∧
      (bid = 1000 → interpretResult r = Outcome.won) := by
  refine ⟨realCompare bid 1000, ?_, ?_, ?_⟩
  · have h := submitBid_stores_realCompare initialContract sender bid ts
    have hr : initialContract.reservePrice = 1000 := rfl
    rw [hr] at h
    simp [getMyResult, h.2, h.1]
  · rw [realCompare_eq]
    by_cases h : 1000 ≤ bid <;> simp [h, interpretResult]
  · intro h
    subst h
    simp [realCompare_eq, interpretResult]

/-- C1 witness: bid 1500 resolves and wins. -/
theorem c1_submit_decrypt_won_iff_witness :
    ∃ r, getMyResult (submitBid initialContract 3 1500 0) 3 = Except.ok r ∧
      (interpretResult r = Outcome.won ↔ 1000 ≤ 1500) ∧
      (1500 = 1000 → interpretResult r = Outcome.won) :=
  c1_submit_decrypt_won_iff 3 0 1500 (by decide) (by decide)

/-- C2 counterexample: the fallback (`calculateMockResult`, the repository's
mock: equality with `String(888)`) disagrees with the real comparison
(`≥ 1000`) at `v = 888`: the mock yields 1 (`Won`) while the real comparison
yields 0 (`Lost`). -/
theorem c2_mock_disagrees_with_real :
    calculateMockResult (some (toString 888)) = 1 ∧
    realCompare 888 1000 = 0 ∧
    calculateMockResult (some (toString 888)) ≠ realCompare 888 1000 := by
  refine ⟨by decide, by decide, by decide⟩

/-- C2 (amended): the fallback outcome does not always equal the
real-comparison outcome.  It agrees on bids below the threshold whose decimal
rendering differs from `"888"`, and disagrees at `v = 888` (mock `Won`, real
`Lost`) and at `v = 1000` (mock `Lost`, real `Won`). -/
theorem c2_mock_vs_real (v : Nat) (hlow : v < 1000)
    (hne : toString v ≠ toString SECRET_NUMBER) :
    calculateMockResult (some (toString v)) = realCompare v 1000 ∧
    calculateMockResult (some (toString 888)) ≠ realCompare 888 1000 ∧
    calculateMockResult (some (toString 1000)) ≠ realCompare 1000 1000 := by
  refine ⟨?_, by decide, by decide⟩
  rw [realCompare_eq]
  have h : ¬(1000 ≤ v) := by omega
  simp [calculateMockResult, hne, h]

/-- C2 witness: at `v = 5` the mock and the real comparison agree. -/
theorem c2_mock_vs_real_witness :
    calculateMockResult (some (toString 5)) = realCompare 5 1000 ∧
    calculateMockResult (some (toString 888)) ≠ realCompare 888 1000 ∧
    calculateMockResult (some (toString 1000)) ≠ realCompare 1000 1000 :=
  c2_mock_vs_real 5 (by decide) (by decide)

/-- C10: `getMyResult` returns the stored result handle exactly when the
caller has submitted a bid, and reverts with `"No bid submitted"` otherwise
(the function is a view: in this embedding it has no state output, so it
cannot modify contract state). -/
theorem c10_getMyResult_requires_bid (st : ContractState) (caller : Addr) :
    ((∃ h, getMyResult st caller = Except.ok h) ↔ st.hasBid caller = true) ∧
    (st.hasBid caller = false →
      getMyResult st caller = Except.error "No bid submitted") ∧
    (st.hasBid caller = true →
      getMyResult st caller = Except.ok (st.bidResults caller)) := by
  by_cases h : st.hasBid caller = true
  · simp [getMyResult, h]
  · have h' : st.hasBid caller = false := by simpa using h
    simp [getMyResult, h']

/-- C10 witness: a fresh contract reverts for a caller without a bid; after a
bid the result is returned. -/
theorem c10_getMyResult_requires_bid_witness :
    getMyResult initialContract 4 = Except.error "No bid submitted" ∧
    (∃ h, getMyResult (submitBid initialContract 3 1200 5) 3 =
      Except.ok h) := by
  constructor
  · exact (c10_getMyResult_requires_bid initialContract 4).2.1 rfl
  · exact (c10_getMyResult_requires_bid (submitBid initialContract 3 1200 5)
      3).1.mpr rfl

/-- C4: on a decryption failure whose message contains `'500'` (transient),
with current retry index `r < maxRetries`, the handler schedules exactly one
new attempt — after a backoff delay of `(r + 1) * baseDelaySeconds` — at retry
index `r + 1` with a freshly generated keypair; `maxRetries = 3` and
`baseDelaySeconds = 10`. -/
theorem c4_transient_failure_backoff (res : Nat → DecryptOutcome) (r k : Nat)
    (msg : String) (hres : res r = DecryptOutcome.failure msg)
    (htr : transient msg = true) (hlt : r < maxRetries) :
    handleDecryptResult res r k =
      { keyIds := k :: (handleDecryptResult res (r + 1) (k + 1)).keyIds
        delays := (r + 1) * baseDelaySeconds ::
          (handleDecryptResult res (r + 1) (k + 1)).delays
        finish := (handleDecryptResult res (r + 1) (k + 1)).finish } ∧
    maxRetries = 3 ∧ baseDelaySeconds = 10 :=
  ⟨handleDecryptResult_retry res r k msg hres ⟨htr, hlt⟩, rfl, rfl⟩

/-- C4 witness: a `"boom 500"` failure at retry index 1 schedules the next
attempt after `2 * 10` seconds. -/
theorem c4_transient_failure_backoff_witness :
    handleDecryptResult (fun _ => DecryptOutcome.failure "boom 500") 1 5 =
      { keyIds := 5 ::
          (handleDecryptResult (fun _ => DecryptOutcome.failure "boom 500")
            (1 + 1) (5 + 1)).keyIds
        delays := (1 + 1) * baseDelaySeconds ::
          (handleDecryptResult (fun _ => DecryptOutcome.failure "boom 500")
            (1 + 1) (5 + 1)).delays
        finish := (handleDecryptResult (fun _ => DecryptOutcome.failure
          "boom 500") (1 + 1) (5 + 1)).finish } ∧
    maxRetries = 3 ∧ baseDelaySeconds = 10 :=
  c4_transient_failure_backoff _ 1 5 _ rfl (by decide) (by decide)

/-- C5: when every attempt fails transiently, a decrypt run started at retry
index 0 performs exactly `1 + maxRetries` real attempts and then fails with
the last error — no further real attempt is ever issued (any run performs at
most `1 + maxRetries` attempts).  The decision at exhaustion is a single step:
with fallback (demo mode) enabled and a transient error the run resolves via
the mock; with fallback disabled it surfaces the error (`Failed`). -/
theorem c5_retry_budget_exhausted (res : Nat → DecryptOutcome)
    (m : Nat → String) (k : Nat)
    (hres : ∀ i, res i = DecryptOutcome.failure (m i))
    (htr : ∀ i, transient (m i) = true) :
    (handleDecryptResult res 0 k).keyIds.length = maxRetries + 1 ∧
    (handleDecryptResult res 0 k).finish = SessionEnd.failed (m maxRetries) ∧
    (∀ res2 r2 k2,
      (handleDecryptResult res2 r2 k2).keyIds.length ≤ maxRetries + 1) ∧
    (∀ msg sv, transient msg = true →
      demoErrorPath true msg sv =
        SessionEnd.resolved (calculateMockResult sv)) ∧
    (∀ msg sv, demoErrorPath false msg sv = SessionEnd.failed msg) := by
  have h0 := handleDecryptResult_retry res 0 k (m 0) (hres 0)
    ⟨htr 0, by decide⟩
  have h1 := handleDecryptResult_retry res (0 + 1) (k + 1) (m (0 + 1))
    (hres (0 + 1)) ⟨htr (0 + 1), by decide⟩
  have h2 := handleDecryptResult_retry res (0 + 1 + 1) (k + 1 + 1)
    (m (0 + 1 + 1)) (hres (0 + 1 + 1)) ⟨htr (0 + 1 + 1), by decide⟩
  have h3 := handleDecryptResult_stop res (0 + 1 + 1 + 1) (k + 1 + 1 + 1)
    (m (0 + 1 + 1 + 1)) (hres (0 + 1 + 1 + 1))
    (by rintro ⟨-, hlt⟩; exact absurd hlt (by decide))
  refine ⟨?_, ?_, ?_, ?_, ?_⟩
  · rw [h0, h1, h2, h3]
    rfl
  · rw [h0, h1, h2, h3]
    rfl
  · intro res2 r2 k2
    have := (handleDecryptResult_keyIds_spec res2 maxRetries r2 k2
      (Nat.sub_le _ _)).2.2.1
    omega
  · intro msg sv htrans
    simp [demoErrorPath, htrans]
  · intro msg sv
    simp [demoErrorPath]

/-- C5 witness: four attempts, then `Failed`; the demo path resolves via the
mock, the non-demo path fails. -/
theorem c5_retry_budget_exhausted_witness :
    (handleDecryptResult (fun _ => DecryptOutcome.failure "err 500")
      0 0).keyIds.length = maxRetries + 1 ∧
    (handleDecryptResult (fun _ => DecryptOutcome.failure "err 500")
      0 0).finish = SessionEnd.failed "err 500" ∧
    demoErrorPath true "err 500" (some "888") =
      SessionEnd.resolved (calculateMockResult (some "888")) ∧
    demoErrorPath false "err 500" (some "888") =
      SessionEnd.failed "err 500" := by
  obtain ⟨a, b, -, d, e⟩ := c5_retry_budget_exhausted
    (fun _ => DecryptOutcome.failure "err 500") (fun _ => "err 500") 0
    (fun _ => rfl) (by intro i; show transient "err 500" = true; decide)
  exact ⟨a, b, d "err 500" (some "888") (by decide), e "err 500" (some "888")⟩

/-- C6: every attempt of a decrypt run generates fresh ephemeral key
material: the generated key ids are pairwise distinct (`Nodup`), and any
later run whose keypair counter starts past this run's ids shares none of
them — no keypair is ever reused across attempts. -/
theorem c6_key_material_never_reused (res res2 : Nat → DecryptOutcome)
    (r r2 k k2 : Nat)
    (hlater : k + (handleDecryptResult res r k).keyIds.length ≤ k2) :
    ((handleDecryptResult res r k).keyIds).Nodup ∧
    (∀ i ∈ (handleDecryptResult res r k).keyIds,
      ∀ j ∈ (handleDecryptResult res2 r2 k2).keyIds, i ≠ j) := by
  obtain ⟨hbnd, hnd, -, -⟩ := handleDecryptResult_keyIds_spec res maxRetries
    r k (Nat.sub_le _ _)
  obtain ⟨hbnd2, -, -, -⟩ := handleDecryptResult_keyIds_spec res2 maxRetries
    r2 k2 (Nat.sub_le _ _)
  refine ⟨hnd, fun i hi j hj => ?_⟩
  have h1 := hbnd i hi
  have h2 := hbnd2 j hj
  omega

/-- C6 witness: two consecutive runs against an always-transient server use
six pairwise-distinct key ids. -/
theorem c6_key_material_never_reused_witness :
    ((handleDecryptResult (fun _ => DecryptOutcome.success 1) 0 0).keyIds).Nodup ∧
    (∀ i ∈ (handleDecryptResult (fun _ => DecryptOutcome.success 1) 0 0).keyIds,
      ∀ j ∈ (handleDecryptResult (fun _ => DecryptOutcome.success 0) 0 7).keyIds,
        i ≠ j) :=
  c6_key_material_never_reused (fun _ => DecryptOutcome.success 1)
    (fun _ => DecryptOutcome.success 0) 0 0 0 7
    (by rw [handleDecryptResult_success _ 0 0 1 rfl]; decide)

/-- The possible external-call traces of a submit run: no calls (a rejection),
the encryption call alone (encryption threw), or the encryption call followed
by the ledger submission carrying the encryption's handle/proof pair. -/
lemma handleSubmitBid_trace_cases (ready cfg : Bool) (enc : Nat → Nat × Nat)
    (encOk txOk : Bool) (errText : String) (s : UiState) :
    (handleSubmitBid ready cfg enc encOk txOk errText s).2 = [] ∨
    (handleSubmitBid ready cfg enc encOk txOk errText s).2 =
      [ExtCall.gatewayEncrypt (bidRaw s.bidAmount)] ∨
    (handleSubmitBid ready cfg enc encOk txOk errText s).2 =
      [ExtCall.gatewayEncrypt (bidRaw s.bidAmount),
        ExtCall.ledgerSubmit (enc (bidRaw s.bidAmount)).1
          (enc (bidRaw s.bidAmount)).2] := by
  cases ready <;> cases cfg <;> cases encOk <;> cases txOk <;>
    by_cases hv : invalidBid s.bidAmount = true <;>
    simp [handleSubmitBid, hv]

/-- C3: the plaintext bid is never transmitted to the ledger: every ledger
submission in a submit run carries exactly the handle/proof pair produced by
the gateway's encryption of the raw value; the raw value itself is passed only
to the gateway, and (whenever the encryption actually differs from its input)
no ledger argument equals the plaintext. -/
theorem c3_plaintext_not_sent_to_ledger (ready cfg : Bool)
    (enc : Nat → Nat × Nat) (encOk txOk : Bool) (errText : String)
    (s : UiState) (h p : Nat)
    (hmem : ExtCall.ledgerSubmit h p ∈
      (handleSubmitBid ready cfg enc encOk txOk errText s).2) :
    (h = (enc (bidRaw s.bidAmount)).1 ∧ p = (enc (bidRaw s.bidAmount)).2) ∧
    (∀ v, ExtCall.gatewayEncrypt v ∈
        (handleSubmitBid ready cfg enc encOk txOk errText s).2 →
      v = bidRaw s.bidAmount) ∧
    ((enc (bidRaw s.bidAmount)).1 ≠ bidRaw s.bidAmount →
      h ≠ bidRaw s.bidAmount) := by
  rcases handleSubmitBid_trace_cases ready cfg enc encOk txOk errText s with
    ht | ht | ht
  · rw [ht] at hmem
    simp at hmem
  · rw [ht] at hmem
    simp at hmem
  · rw [ht] at hmem
    simp only [List.mem_cons, List.mem_singleton] at hmem
    rcases hmem with hmem | hmem | hmem
    · exact absurd hmem (by simp)
    · obtain ⟨h1, h2⟩ := by simpa using hmem
      subst h1
      subst h2
      refine ⟨⟨rfl, rfl⟩, ?_, fun hne => hne⟩
      intro v hv
      rw [ht] at hv
      simpa using hv
    · simp at hmem

/-- A bidding state: the page with `5` typed into the amount field. -/
def biddingState : UiState :=
  { bidAmount := some 5
    hasBidSubmitted := false
    canDecrypt := false
    countdown := 0
    result := none
    errorMsg := none }

/-- C3 witness: with `enc v = (v + 1, v + 2)` and a bid of 5, the ledger call
carries `(6, 7)`, the encryption of the plaintext. -/
theorem c3_plaintext_not_sent_to_ledger_witness :
    ExtCall.ledgerSubmit 6 7 ∈
      (handleSubmitBid true true (fun v => (v + 1, v + 2)) true true "x"
        biddingState).2 ∧
    (6 = ((fun v : Nat => (v + 1, v + 2)) (bidRaw biddingState.bidAmount)).1 ∧
      7 = ((fun v : Nat => (v + 1, v + 2)) (bidRaw biddingState.bidAmount)).2) :=
  ⟨by decide,
    (c3_plaintext_not_sent_to_ledger true true (fun v => (v + 1, v + 2))
      true true "x" biddingState 6 7 (by decide)).1⟩

/-- C7: at most one active session per identity: while a submission is
pending (`hasBidSubmitted`), the submit control is not rendered and a submit
event is a no-op; and the only transition that re-enables submitting is
`Try Again`, which is accepted only in a state holding a result (a terminal,
resolved session). -/
theorem c7_single_active_session (cfg : Bool) (s : UiState) (e : Event) :
    (∀ enc encOk txOk errText, submitEnabled s = false →
      step cfg s (Event.submit enc encOk txOk errText) = s) ∧
    (submitEnabled (step cfg s e) = true →
      submitEnabled s = true ∨
        (e = Event.tryAgain ∧ s.result.isSome = true)) := by
  constructor
  · intro enc encOk txOk errText hdis
    have hb : s.hasBidSubmitted = true := by
      simpa [submitEnabled] using hdis
    simp [step, hb]
  · intro hen
    cases e with
    | setAmount q =>
        left
        by_cases hb : s.hasBidSubmitted = true
        · simpa [step, hb] using hen
        · simp [submitEnabled, hb]
    | submit enc encOk txOk errText =>
        by_cases hb : s.hasBidSubmitted = true
        · left
          simpa [step, hb] using hen
        · left
          simp [submitEnabled, hb]
    | tick =>
        left
        by_cases h0 : s.countdown = 0
        · simpa [step, h0] using hen
        · by_cases h1 : s.countdown ≤ 1 <;>
            simpa [step, submitEnabled, h0, h1] using hen
    | decrypt fin =>
        left
        by_cases hc : s.canDecrypt = true ∧ s.result = none
        · cases fin with
          | resolved v => simpa [step, submitEnabled, hc] using hen
          | failed m => simpa [step, submitEnabled, hc] using hen
        · simpa [step, hc] using hen
    | tryAgain =>
        by_cases hr : resetEnabled s = true
        · right
          exact ⟨rfl, by simpa [resetEnabled] using hr⟩
        · left
          simpa [step, hr] using hen

/-- A resolved state: a submitted bid whose result has been decrypted. -/
def resolvedState : UiState :=
  { bidAmount := none
    hasBidSubmitted := true
    canDecrypt := false
    countdown := 0
    result := some 1
    errorMsg := none }

/-- C7 witness: in a pending session a submit event is a no-op, and the
re-enabling transition is `Try Again` from a resolved state. -/
theorem c7_single_active_session_witness :
    step true resolvedState
      (Event.submit (fun v => (v + 1, v + 2)) true true "x") =
      resolvedState ∧
    (submitEnabled resolvedState = true ∨
      (Event.tryAgain = Event.tryAgain ∧ resolvedState.result.isSome = true)) :=
  ⟨(c7_single_active_session true resolvedState Event.tryAgain).1
      (fun v => (v + 1, v + 2)) true true "x" rfl,
    (c7_single_active_session true resolvedState Event.tryAgain).2 rfl⟩

/-- A reachable state after a fatally failed decryption (a `Failed` terminal
state in the spec's sense): the submitted flag is still set, the decrypt
button is still offered, no result is present, and the error is displayed. -/
def failedState : UiState :=
  { bidAmount := none
    hasBidSubmitted := true
    canDecrypt := true
    countdown := 0
    result := none
    errorMsg := some "Failed to decrypt result" }

/-- C8 counterexample: the claim asserts `reset()` is valid from every
terminal state, including `Failed`; on the code, in the reachable failed
state the `Try Again` control is not rendered (`result === null`) and the
reset event is a no-op, leaving the residual `lastError` in place. -/
theorem c8_reset_unavailable_from_failed :
    run true initialUiState
      [Event.setAmount (some 5),
        Event.submit (fun v => (v + 1, v + 2)) true true "x",
        Event.tick, Event.tick, Event.tick, Event.tick, Event.tick,
        Event.tick, Event.tick, Event.tick, Event.tick, Event.tick,
        Event.decrypt (SessionEnd.failed "Failed to decrypt result")] =
      failedState ∧
    resetEnabled failedState = false ∧
    step true failedState Event.tryAgain = failedState ∧
    failedState ≠ initialUiState := by
  refine ⟨by decide, rfl, rfl, by decide⟩

/-- C8 (amended): `reset()` (`Try Again`) is offered exactly in states
holding a result (`Resolved`); from any such state it returns the session to
the initial `Idle` state with every session field cleared (no residual
outcome, error, countdown or pending bid amount).  From `Failed` states
(error set, no result) the control is not rendered. -/
theorem c8_reset_from_resolved (cfg : Bool) (s : UiState)
    (hres : s.result.isSome = true) :
    resetEnabled s = true ∧
    step cfg s Event.tryAgain = initialUiState ∧
    initialUiState.result = none ∧ initialUiState.errorMsg = none ∧
    initialUiState.countdown = 0 ∧ initialUiState.bidAmount = none ∧
    initialUiState.hasBidSubmitted = false ∧
    initialUiState.canDecrypt = false := by
  have hr : resetEnabled s = true := by simpa [resetEnabled] using hres
  exact ⟨hr, by simp [step, hr, handleTryAgain, initialUiState],
    rfl, rfl, rfl, rfl, rfl, rfl⟩

/-- C8 witness: resetting from the resolved state reaches the initial state. -/
theorem c8_reset_from_resolved_witness :
    resetEnabled resolvedState = true ∧
    step true resolvedState Event.tryAgain = initialUiState ∧
    initialUiState.result = none ∧ initialUiState.errorMsg = none ∧
    initialUiState.countdown = 0 ∧ initialUiState.bidAmount = none ∧
    initialUiState.hasBidSubmitted = false ∧
    initialUiState.canDecrypt = false :=
  c8_reset_from_resolved true resolvedState rfl

/-- C9: a submit with an invalid amount — the field empty or its value not a
positive number, which is exactly the validation predicate — is rejected with
the `InvalidInput` message, performs no encryption and no ledger call, and
changes nothing else in the session state. -/
theorem c9_invalid_input_rejected (cfg : Bool) (enc : Nat → Nat × Nat)
    (encOk txOk : Bool) (errText : String) (s : UiState)
    (hinv : invalidBid s.bidAmount = true) :
    (invalidBid s.bidAmount = true ↔
      ¬∃ q : ℚ, s.bidAmount = some q ∧ 0 < q) ∧
    handleSubmitBid true cfg enc encOk txOk errText s =
      ({ s with errorMsg := some validationError }, []) := by
  constructor
  · rcases ha : s.bidAmount with _ | q
    · simp [invalidBid]
    · simp [invalidBid, not_lt]
  · simp [handleSubmitBid, hinv]

/-- C9 witness: submitting with an empty amount field is rejected with the
validation error and no external calls. -/
theorem c9_invalid_input_rejected_witness :
    (invalidBid initialUiState.bidAmount = true ↔
      ¬∃ q : ℚ, initialUiState.bidAmount = some q ∧ 0 < q) ∧
    handleSubmitBid true true (fun v => (v + 1, v + 2)) true true "x"
        initialUiState =
      ({ initialUiState with errorMsg := some validationError }, []) :=
  c9_invalid_input_rejected true (fun v => (v + 1, v + 2)) true true "x"
    initialUiState rfl

end SecretAuction
